import Mathlib

/-!
Verification of `scripts/download_endes.py`, a command-line utility that
downloads a list of URLs into an output directory.

The development shallowly embeds the script's functions:

* `build_headers`  — header-map construction from user agent, optional
  referer, and extra `"Name: Value"` strings;
* `read_url_file`  — URL-file line parsing (trim, skip blanks and `#`);
* `infer_filename` — filename inference from `Content-Disposition`, the
  URL path, or the literal fallback `downloaded_file`;
* `download_file`  — a single GET: status check, temp-file streaming,
  empty-body check, atomic rename (modelled over an explicit directory
  state `Fs`);
* `collect_urls`   — deduplication of the combined URL list;
* `runMain`        — the driver loop and exit-code policy (`main`).

Python strings are Lean `String`s, the response is a `Response` record,
the filesystem state of the output directory is an association list from
filename to file bytes, and exceptions are `Except` values.  The path
component of `urllib.parse.urlparse` is embedded in `urlparse_path`,
following CPython's `urlsplit`/`_splitparams`.
-/

/-- Python `str.split(sep)[-1]` never fails because `split` always returns a
non-empty list; `getLastD` with default `""` mirrors that totality. -/
def lastPart (parts : List String) : String :=
  parts.getLastD ""

/-- Scanner for `pySplit`: walk the characters with explicit fuel (structural
recursion, so the kernel can evaluate it); whenever `sep` is a prefix of the
remainder, emit the accumulated part and skip `sep`. -/
def pySplitGo (sep : List Char) : Nat → List Char → List Char → List (List Char)
  | 0, _, acc => [acc.reverse]
  | fuel + 1, cs, acc =>
    if sep.isPrefixOf cs then
      acc.reverse :: pySplitGo sep fuel (cs.drop sep.length) []
    else
      match cs with
      | [] => [acc.reverse]
      | c :: rest => pySplitGo sep fuel rest (c :: acc)

/-- Python `s.split(sep)` for a non-empty separator: the parts between
non-overlapping left-to-right occurrences of `sep`. -/
def pySplit (s sep : String) : List String :=
  (pySplitGo sep.data (s.data.length + 1) s.data []).map String.mk

/-- Python `str.strip()`: remove leading and trailing whitespace. -/
def pyStrip (s : String) : String :=
  String.mk (((s.data.dropWhile Char.isWhitespace).reverse.dropWhile
    Char.isWhitespace).reverse)

/-- Python `s.startswith(pat)`. -/
def pyStartsWith (s pat : String) : Bool :=
  pat.data.isPrefixOf s.data

/-- Python `needle in hay` for strings: the substring occurs iff splitting on
it produces at least two parts. -/
def hasSubstring (hay pat : String) : Bool :=
  decide (2 ≤ (pySplit hay pat).length)

/-- Python `s.strip('"')`: remove all leading and trailing double quotes. -/
def stripQuotes (s : String) : String :=
  String.mk (((s.data.dropWhile (fun c => c == '"')).reverse.dropWhile
    (fun c => c == '"')).reverse)

/-- Characters allowed in a URL scheme after the first letter
(CPython `urllib.parse.scheme_chars`). -/
def schemeChar (c : Char) : Bool :=
  c.isAlpha || c.isDigit || c == '+' || c == '-' || c == '.'

/-- Schemes for which `urlparse` splits `;params` off the path
(CPython `urllib.parse.uses_params`). -/
def usesParams : List String :=
  ["", "ftp", "hdl", "prospero", "http", "imap", "https", "shttp",
   "rtsp", "rtspu", "sip", "sips", "mms", "sftp", "tel"]

/-- Split a character list at the first occurrence of `c`: `some (before,
after)` when `c` occurs, `none` otherwise (Python `s.find(c)` plus slicing). -/
def splitAtFirst (c : Char) : List Char → Option (List Char × List Char)
  | [] => none
  | a :: as =>
    if a == c then some ([], as)
    else
      match splitAtFirst c as with
      | some (b, r) => some (a :: b, r)
      | none => none

/-- Scheme detection of CPython `urlsplit`: a colon at position `> 0`, an
ASCII-alphabetic first character and only scheme characters before the colon
yield the lowercased scheme and the remainder after the colon. -/
def urlSchemeSplit (cs : List Char) : List Char × List Char :=
  match splitAtFirst ':' cs with
  | some (before, after) =>
    if !before.isEmpty && (before.headD ' ').isAlpha && before.all schemeChar then
      (before.map Char.toLower, after)
    else ([], cs)
  | none => ([], cs)

/-- Netloc removal of CPython `urlsplit`: after a leading `//` the authority
extends to the first `/`, `?` or `#`, which stays in the remainder. -/
def removeNetloc : List Char → List Char
  | '/' :: '/' :: r => r.dropWhile (fun c => !(c == '/' || c == '?' || c == '#'))
  | cs => cs

/-- CPython `urllib.parse._splitparams`, applied when the path contains `;`:
cut at the first `;` after the last `/` (or at the first `;` when there is no
`/`); keep the path unchanged when no `;` follows the last `/`. -/
def splitParams (p : List Char) : List Char :=
  if p.contains '/' then
    let suffix := (p.reverse.takeWhile (fun c => c != '/')).reverse
    let pre := p.take (p.length - suffix.length)
    if suffix.contains ';' then pre ++ suffix.takeWhile (fun c => c != ';')
    else p
  else p.takeWhile (fun c => c != ';')

/-- The `path` component of `urllib.parse.urlparse(url)`: strip leading
control characters and spaces, remove tabs and line breaks, strip the scheme
and the `//netloc`, cut fragment then query, and split `;params` for schemes
in `usesParams`. -/
def urlparse_path (url : String) : String :=
  let cs := url.data.dropWhile (fun c => c.toNat ≤ 32)
  let cs := cs.filter (fun c => !(c == '\t' || c == '\r' || c == '\n'))
  let sr := urlSchemeSplit cs
  let scheme := sr.1
  let rest := removeNetloc sr.2
  let rest := rest.takeWhile (fun c => c != '#')
  let rest := rest.takeWhile (fun c => c != '?')
  let path :=
    if usesParams.contains (String.mk scheme) && rest.contains ';' then
      splitParams rest
    else rest
  String.mk path

/-- `os.path.basename` on POSIX: everything after the last `/`. -/
def posix_basename (p : String) : String :=
  String.mk ((p.data.reverse.takeWhile (fun c => c != '/')).reverse)

/-- Lookup in a header map built as an association list, mirroring Python
`dict` access (keys are unique by construction). -/
def hlookup (headers : List (String × String)) (k : String) : Option String :=
  match headers.find? (fun p => p.1 == k) with
  | some p => some p.2
  | none => none

/-- `infer_filename(url, headers)` from the source: prefer a non-empty
`filename=` value in `Content-Disposition` (last split part, whitespace then
quotes stripped), else the basename of the URL path, else
`"downloaded_file"`. -/
def infer_filename (url : String) (headers : List (String × String)) : String :=
  let content_disposition := (hlookup headers "Content-Disposition").getD ""
  let viaCd : Option String :=
    if hasSubstring content_disposition "filename=" then
      let value := stripQuotes (pyStrip (lastPart (pySplit content_disposition "filename=")))
      if value == "" then none else some value
    else none
  match viaCd with
  | some value => value
  | none =>
    let name := posix_basename (urlparse_path url)
    if name == "" then "downloaded_file" else name

/-- First resolver of the spec's fallback chain: a non-empty `filename=`
token inside `Content-Disposition`, quotes stripped. -/
def cdResolver (headers : List (String × String)) : Option String :=
  let content_disposition := (hlookup headers "Content-Disposition").getD ""
  if hasSubstring content_disposition "filename=" then
    let value := stripQuotes (pyStrip (lastPart (pySplit content_disposition "filename=")))
    if value == "" then none else some value
  else none

/-- Second resolver of the spec's fallback chain: the last path segment of
the URL, when non-empty. -/
def urlResolver (url : String) : Option String :=
  let name := posix_basename (urlparse_path url)
  if name == "" then none else some name

/-- The spec's prioritized-rule formulation of filename inference: try the
`Content-Disposition` resolver, then the URL resolver, then fall back to the
literal `downloaded_file`. -/
def inferFilenameSpec (url : String) (headers : List (String × String)) : String :=
  match cdResolver headers with
  | some v => v
  | none =>
    match urlResolver url with
    | some v => v
    | none => "downloaded_file"

example : infer_filename "https://example.org/files/data.zip" [] = "data.zip" := by decide
example : infer_filename "https://example.org/" [] = "downloaded_file" := by decide
example :
    infer_filename "https://x.test/a.bin"
      [("Content-Disposition", "attachment; filename=\"survey.sav\"")] = "survey.sav" := by
  decide

/-- Python `headers[name] = value` on a `dict` kept as an association list:
replace the value of an existing key in place, otherwise append the new
binding at the end (insertion order, as Python dicts preserve it). -/
def hinsert : List (String × String) → String → String → List (String × String)
  | [], k, v => [(k, v)]
  | p :: ps, k, v => if p.1 == k then (k, v) :: ps else p :: hinsert ps k v

/-- Python `":" in raw_header`. -/
def hasColon (s : String) : Bool :=
  s.data.contains ':'

/-- The two halves of `raw_header.split(":", 1)`: before the first colon and
after it (the whole string and `""` when there is no colon). -/
def splitFirstColon (s : String) : String × String :=
  match splitAtFirst ':' s.data with
  | some (before, after) => (String.mk before, String.mk after)
  | none => (s, "")

/-- `name.strip()` of the `name, value = raw_header.split(":", 1)` pair. -/
def headerName (s : String) : String :=
  pyStrip (splitFirstColon s).1

/-- `value.strip()` of the `name, value = raw_header.split(":", 1)` pair. -/
def headerValue (s : String) : String :=
  pyStrip (splitFirstColon s).2

/-- The `for raw_header in extra_headers` loop of `build_headers`: reject the
first entry without a colon with a `DownloadError`, otherwise insert the
stripped name/value pair and continue. -/
def buildExtra : List String → List (String × String) → Except String (List (String × String))
  | [], headers => .ok headers
  | raw :: rest, headers =>
    if hasColon raw then
      buildExtra rest (hinsert headers (headerName raw) (headerValue raw))
    else .error ("Invalid header format: " ++ raw)

/-- `build_headers(user_agent, referer, extra_headers)` from the source:
start from `{"User-Agent": user_agent}`, add `Referer` when the referer is
truthy (present and non-empty), then fold in the extra `"Name: Value"`
entries. -/
def build_headers (user_agent : String) (referer : Option String)
    (extra_headers : List String) : Except String (List (String × String)) :=
  let headers := [("User-Agent", user_agent)]
  let headers :=
    match referer with
    | some r => if r == "" then headers else hinsert headers "Referer" r
    | none => headers
  buildExtra extra_headers headers

/-- `read_url_file(path)` from the source, over the file's lines: strip each
line, skip empty results and lines starting with `#`, append the rest in
order.  `none` models `path=None` (no `--url-file`). -/
def read_url_file (file : Option (List String)) : List String :=
  match file with
  | none => []
  | some lines =>
    lines.foldl
      (fun urls line =>
        let stripped := pyStrip line
        if stripped == "" || pyStartsWith stripped "#" then urls
        else urls ++ [stripped]) []

/-- The deduplication loop of `collect_urls`: the pair is `(unique_urls,
seen)`; a URL already in `seen` is skipped, otherwise it is appended to
`unique_urls` and added to `seen`. -/
def collectStep (acc : List String × List String) (url : String) :
    List String × List String :=
  if acc.2.contains url then acc else (acc.1 ++ [url], url :: acc.2)

/-- `collect_urls(args)` from the source: direct `--url` arguments first,
then the URL-file entries, deduplicated keeping the first occurrence. -/
def collect_urls (direct : List String) (fileUrls : List String) : List String :=
  let urls := direct ++ fileUrls
  (urls.foldl collectStep ([], [])).1

/-- Reference formulation of first-occurrence deduplication: keep the head
and deduplicate the tail with all copies of the head removed. -/
def dedupFirstSpec : List String → List String
  | [] => []
  | a :: l => a :: dedupFirstSpec (l.filter (fun x => x != a))
termination_by l => l.length
decreasing_by
  simp only [List.length_cons]
  exact Nat.lt_succ_of_le (List.length_filter_le _ _)

/-- An HTTP response as `download_file` observes it: `response.status`, the
`response.headers.items()` map, and the body bytes read by
`shutil.copyfileobj`. -/
structure Response where
  status : Nat
  headers : List (String × String)
  body : List Nat

/-- The output directory's contents: an association list from filename to
the file's bytes. -/
abbrev Fs := List (String × List Nat)

/-- `os.path.exists` / reading a file: the bytes stored under `name`. -/
def fsLookup (fs : Fs) (name : String) : Option (List Nat) :=
  match fs.find? (fun p => p.1 == name) with
  | some p => some p.2
  | none => none

/-- Creating/overwriting file `name` with `content`. -/
def fsWrite (fs : Fs) (name : String) (content : List Nat) : Fs :=
  (name, content) :: fs.filter (fun p => !(p.1 == name))

/-- `os.remove name` (no error if absent, which the source guards with
`os.path.exists`). -/
def fsRemove (fs : Fs) (name : String) : Fs :=
  fs.filter (fun p => !(p.1 == name))

/-- `download_file(url, output_dir, headers, timeout)` from the source, over
a directory state `fs` and the response `resp` the GET yields; `tempName` is
the fresh name `tempfile.NamedTemporaryFile(dir=output_dir)` picks.  Returns
the `DownloadError` or the final path, together with the directory state:
non-200 status fails before writing; the body is streamed to the temp file;
an empty result deletes the temp file and fails; otherwise `os.replace`
moves the temp file onto `output_dir / filename`. -/
def download_file (url : String) (output_dir : String) (fs : Fs)
    (resp : Response) (tempName : String) : Except String String × Fs :=
  if !(resp.status == 200) then
    (.error ("HTTP " ++ toString resp.status ++ " for " ++ url), fs)
  else
    let headers := resp.headers
    let filename := infer_filename url headers
    let output_path := output_dir ++ "/" ++ filename
    let fsTmp := fsWrite fs tempName resp.body
    let size := resp.body.length
    if size == 0 then
      (.error ("Downloaded file is empty: " ++ output_path), fsRemove fsTmp tempName)
    else
      (.ok output_path, fsWrite (fsRemove fsTmp tempName) filename resp.body)

/-- The `for url in urls: try download_file ... except` loop of `main`:
returns the URLs attempted (all of them, in order) and the failures list in
order; `download` abstracts one `download_file` call, an `Except.error`
standing for a raised exception. -/
def downloadLoop (download : String → Except String String) :
    List String → List String × List String
  | [] => ([], [])
  | url :: rest =>
    let tail := downloadLoop download rest
    match download url with
    | .ok _ => (url :: tail.1, tail.2)
    | .error _ => (url :: tail.1, url :: tail.2)

/-- `main()` from the source: collect the URLs; exit 2 when there are none;
build the headers (a `DownloadError` here propagates uncaught, modelled as
`.error`); otherwise run the download loop and exit 1 when any URL failed,
0 otherwise.  The result also carries the attempted URLs and the failures
list, in order. -/
def runMain (direct : List String) (urlFile : Option (List String))
    (user_agent : String) (referer : Option String) (extra_headers : List String)
    (download : String → Except String String) :
    Except String Nat × List String × List String :=
  let urls := collect_urls direct (read_url_file urlFile)
  if urls.isEmpty then (.ok 2, [], [])
  else
    match build_headers user_agent referer extra_headers with
    | .error e => (.error e, [], [])
    | .ok _ =>
      let r := downloadLoop download urls
      (.ok (if r.2.isEmpty then 0 else 1), r.1, r.2)

/-- Whether the abstracted `download_file` call for `url` raises. -/
def downloadFails (download : String → Except String String) (url : String) : Bool :=
  match download url with
  | .ok _ => false
  | .error _ => true

section Lemmas

theorem hlookup_cons (p : String × String) (ps : List (String × String)) (k : String) :
    hlookup (p :: ps) k = if p.1 == k then some p.2 else hlookup ps k := by
  cases hb : p.1 == k <;> simp [hlookup, List.find?, hb]

theorem hlookup_hinsert_self (m : List (String × String)) (k v : String) :
    hlookup (hinsert m k v) k = some v := by
  induction m with
  | nil => simp [hinsert, hlookup_cons, hlookup]
  | cons p ps ih =>
    cases hb : p.1 == k
    · simp only [hinsert, hb, Bool.false_eq_true, if_false, hlookup_cons, hb]
      exact ih
    · simp [hinsert, hb, hlookup_cons]

theorem hlookup_hinsert_ne (m : List (String × String)) (k v k' : String)
    (h : k' ≠ k) : hlookup (hinsert m k v) k' = hlookup m k' := by
  have hk : (k == k') = false := by simp [Ne.symm h]
  induction m with
  | nil => simp [hinsert, hlookup_cons, hk, hlookup]
  | cons p ps ih =>
    cases hb : p.1 == k
    · simp only [hinsert, hb, Bool.false_eq_true, if_false, hlookup_cons]
      rw [ih]
    · have hp : p.1 = k := by simpa using hb
      have hp' : (p.1 == k') = false := by simp [hp, Ne.symm h]
      simp [hinsert, hb, hlookup_cons, hk, hp']

theorem buildExtra_ok (es : List String) :
    ∀ hs, (∀ s ∈ es, hasColon s = true) →
      buildExtra es hs =
        .ok (es.foldl (fun m s => hinsert m (headerName s) (headerValue s)) hs) := by
  induction es with
  | nil => intro hs _; rfl
  | cons a es ih =>
    intro hs h
    have ha : hasColon a = true := h a (List.mem_cons_self a es)
    simp only [buildExtra, ha, if_true, List.foldl_cons]
    exact ih _ (fun s hm => h s (List.mem_cons_of_mem a hm))

theorem buildExtra_error (es : List String) :
    ∀ hs, (∃ s ∈ es, hasColon s = false) →
      ∃ e, buildExtra es hs = .error e := by
  induction es with
  | nil => intro hs h; obtain ⟨s, hm, _⟩ := h; exact absurd hm (List.not_mem_nil s)
  | cons a es ih =>
    intro hs h
    by_cases ha : hasColon a = true
    · obtain ⟨s, hm, hc⟩ := h
      rcases List.mem_cons.mp hm with rfl | hm'
      · exact absurd ha (by simp [hc])
      · simp only [buildExtra, ha, if_true]
        exact ih _ ⟨s, hm', hc⟩
    · have ha' : hasColon a = false := by revert ha; cases hasColon a <;> simp
      refine ⟨"Invalid header format: " ++ a, ?_⟩
      simp [buildExtra, ha']

theorem hlookup_foldl_ne (es : List String) (k : String) :
    ∀ hs, (∀ s ∈ es, headerName s ≠ k) →
      hlookup (es.foldl (fun m s => hinsert m (headerName s) (headerValue s)) hs) k =
        hlookup hs k := by
  induction es with
  | nil => intro hs _; rfl
  | cons a es ih =>
    intro hs h
    simp only [List.foldl_cons]
    rw [ih _ (fun s hm => h s (List.mem_cons_of_mem a hm))]
    exact hlookup_hinsert_ne hs (headerName a) (headerValue a) k
      (Ne.symm (h a (List.mem_cons_self a es)))

theorem fsLookup_cons (p : String × List Nat) (ps : Fs) (k : String) :
    fsLookup (p :: ps) k = if p.1 == k then some p.2 else fsLookup ps k := by
  cases hb : p.1 == k <;> simp [fsLookup, List.find?, hb]

theorem fsLookup_fsWrite_self (fs : Fs) (n : String) (c : List Nat) :
    fsLookup (fsWrite fs n c) n = some c := by
  simp [fsWrite, fsLookup_cons]

theorem fsLookup_filter_ne (fs : Fs) (n k : String) (h : k ≠ n) :
    fsLookup (fs.filter (fun p => !(p.1 == n))) k = fsLookup fs k := by
  induction fs with
  | nil => rfl
  | cons p ps ih =>
    cases hb : p.1 == n
    · simp only [List.filter_cons, hb, Bool.not_false, if_true, fsLookup_cons]
      rw [ih]
    · have hp : p.1 = n := by simpa using hb
      have hp' : (p.1 == k) = false := by simp [hp, Ne.symm h]
      simp [List.filter_cons, hb, fsLookup_cons, hp', ih]

theorem fsLookup_fsWrite_ne (fs : Fs) (n : String) (c : List Nat) (k : String)
    (h : k ≠ n) : fsLookup (fsWrite fs n c) k = fsLookup fs k := by
  have hn : (n == k) = false := by simp [Ne.symm h]
  simp only [fsWrite, fsLookup_cons, hn, Bool.false_eq_true, if_false]
  exact fsLookup_filter_ne fs n k h

theorem fsLookup_fsRemove_self (fs : Fs) (n : String) :
    fsLookup (fsRemove fs n) n = none := by
  induction fs with
  | nil => rfl
  | cons p ps ih =>
    cases hb : p.1 == n
    · simp only [fsRemove, List.filter_cons, hb, Bool.not_false, if_true, fsLookup_cons, hb]
      simpa [fsRemove] using ih
    · simpa [fsRemove, List.filter_cons, hb] using ih

theorem fsLookup_fsRemove_ne (fs : Fs) (n k : String) (h : k ≠ n) :
    fsLookup (fsRemove fs n) k = fsLookup fs k :=
  fsLookup_filter_ne fs n k h

theorem filter_eq_self_of_fresh (fs : Fs) (n : String)
    (h : fsLookup fs n = none) : fs.filter (fun p => !(p.1 == n)) = fs := by
  induction fs with
  | nil => rfl
  | cons p ps ih =>
    cases hb : p.1 == n
    · have htail : fsLookup ps n = none := by
        by_cases hc : fsLookup ps n = none
        · exact hc
        · exfalso
          apply hc
          have := h
          rw [fsLookup_cons, hb] at this
          simpa using this
      simp [List.filter_cons, hb, ih htail]
    · exfalso
      rw [fsLookup_cons, hb] at h
      simp at h

theorem fsRemove_fsWrite_fresh (fs : Fs) (n : String) (c : List Nat)
    (h : fsLookup fs n = none) : fsRemove (fsWrite fs n c) n = fs := by
  simp only [fsRemove, fsWrite, List.filter_cons, beq_self_eq_true, Bool.not_true,
    Bool.false_eq_true, if_false, List.filter_filter]
  have : (fun p : String × List Nat => !(p.1 == n) && !(p.1 == n)) =
      (fun p : String × List Nat => !(p.1 == n)) := by
    funext p; cases p.1 == n <;> rfl
  rw [this]
  exact filter_eq_self_of_fresh fs n h

theorem dedupFirstSpec_sublist (l : List String) : (dedupFirstSpec l).Sublist l := by
  induction l using dedupFirstSpec.induct with
  | case1 => simp [dedupFirstSpec]
  | case2 a l ih =>
    rw [dedupFirstSpec]
    exact List.Sublist.cons₂ a (ih.trans (List.filter_sublist l))

theorem count_dedupFirstSpec (l : List String) (u : String) :
    (dedupFirstSpec l).count u = if u ∈ l then 1 else 0 := by
  induction l using dedupFirstSpec.induct with
  | case1 => simp [dedupFirstSpec]
  | case2 a l ih =>
    rw [dedupFirstSpec]
    by_cases h : u = a
    · subst h
      have hnot : u ∉ l.filter (fun x => x != u) := by
        intro hm
        have := (List.mem_filter.mp hm).2
        simp at this
      rw [List.count_cons_self, ih, if_neg hnot]
      simp
    · have hne : (u == a) = false := by simp [h]
      have hmem : (u ∈ l.filter (fun x => x != a)) ↔ u ∈ l := by
        constructor
        · exact fun hm => (List.mem_filter.mp hm).1
        · intro hm
          exact List.mem_filter.mpr ⟨hm, by simp [h]⟩
      rw [List.count_cons, ih]
      simp [hne, hmem, List.mem_cons, h, Ne.symm h]

theorem foldl_collectStep (l : List String) :
    ∀ uniq seen, (l.foldl collectStep (uniq, seen)).1 =
      uniq ++ dedupFirstSpec (l.filter (fun x => !seen.contains x)) := by
  induction l with
  | nil => intro uniq seen; simp [dedupFirstSpec]
  | cons a l ih =>
    intro uniq seen
    cases h : seen.contains a
    · have h' : a ∉ seen := by simpa using h
      have step : collectStep (uniq, seen) a = (uniq ++ [a], a :: seen) := by
        simp [collectStep, h']
      rw [List.foldl_cons, step, ih]
      have hfil : (a :: l).filter (fun x => !seen.contains x) =
          a :: l.filter (fun x => !seen.contains x) := by
        simp [List.filter_cons, h']
      rw [hfil, dedupFirstSpec]
      have hff : (l.filter (fun x => !seen.contains x)).filter (fun x => x != a) =
          l.filter (fun x => !(a :: seen).contains x) := by
        rw [List.filter_filter]
        apply List.filter_congr
        intro x _
        show ((x != a) && !seen.contains x) = !(a :: seen).contains x
        have hc : (a :: seen).contains x = ((x == a) || seen.contains x) := by
          simp only [List.contains_cons, beq_eq_decide]
        rw [hc, Bool.not_or]
        simp [bne]
      rw [hff, List.append_assoc]
      rfl
    · have h' : a ∈ seen := by simpa using h
      have step : collectStep (uniq, seen) a = (uniq, seen) := by
        simp [collectStep, h']
      rw [List.foldl_cons, step, ih]
      have hfil : (a :: l).filter (fun x => !seen.contains x) =
          l.filter (fun x => !seen.contains x) := by
        simp [List.filter_cons, h']
      rw [hfil]

theorem collect_urls_eq_dedup (direct fileUrls : List String) :
    collect_urls direct fileUrls = dedupFirstSpec (direct ++ fileUrls) := by
  have := foldl_collectStep (direct ++ fileUrls) [] []
  simpa [collect_urls, List.filter_eq_self] using this

theorem read_url_file_foldl (lines : List String) :
    ∀ acc, lines.foldl
        (fun urls line =>
          let stripped := pyStrip line
          if stripped == "" || pyStartsWith stripped "#" then urls
          else urls ++ [stripped]) acc =
      acc ++ (lines.map pyStrip).filter
        (fun s => !(s == "" || pyStartsWith s "#")) := by
  induction lines with
  | nil => intro acc; simp
  | cons line lines ih =>
    intro acc
    cases h : (pyStrip line == "" || pyStartsWith (pyStrip line) "#")
    · simp only [List.foldl_cons, h, Bool.false_eq_true, if_false, List.map_cons,
        List.filter_cons, Bool.not_false, if_true]
      rw [ih]
      simp
    · simp only [List.foldl_cons, h, if_true, List.map_cons,
        List.filter_cons, Bool.not_true, Bool.false_eq_true, if_false]
      exact ih acc

theorem downloadLoop_eq (download : String → Except String String) (l : List String) :
    downloadLoop download l = (l, l.filter (downloadFails download)) := by
  induction l with
  | nil => rfl
  | cons url rest ih =>
    rw [downloadLoop, ih]
    cases h : download url with
    | ok v => simp [List.filter_cons, downloadFails, h]
    | error e => simp [List.filter_cons, downloadFails, h]

theorem infer_filename_eq_spec (url : String) (headers : List (String × String)) :
    infer_filename url headers = inferFilenameSpec url headers := by
  unfold infer_filename inferFilenameSpec cdResolver urlResolver
  cases h1 : hasSubstring ((hlookup headers "Content-Disposition").getD "") "filename="
  · simp only [h1, Bool.false_eq_true, if_false]
    cases h2 : posix_basename (urlparse_path url) == "" <;> simp [h2]
  · simp only [h1, if_true]
    cases h2 : stripQuotes (pyStrip (lastPart
        (pySplit ((hlookup headers "Content-Disposition").getD "") "filename="))) == ""
    · simp [h2]
    · simp only [h2, if_true]
      cases h3 : posix_basename (urlparse_path url) == "" <;> simp [h3]

end Lemmas

/-- Claim C2: `infer_filename` applies the fallback chain in order — a
non-empty `filename=` token of `Content-Disposition` (quotes stripped) is
preferred, otherwise the last path segment of the URL, otherwise the literal
`downloaded_file`; in particular
`Content-Disposition: attachment; filename="survey.sav"` yields
`survey.sav` for every URL, and a URL with no path segment and no
`Content-Disposition` yields `downloaded_file`. -/
theorem infer_filename_fallback_chain :
    (∀ url headers, infer_filename url headers = inferFilenameSpec url headers) ∧
    (∀ url, infer_filename url
        [("Content-Disposition", "attachment; filename=\"survey.sav\"")] = "survey.sav") ∧
    infer_filename "https://example.org/" [] = "downloaded_file" := by
  refine ⟨infer_filename_eq_spec, ?_, by decide⟩
  intro url
  rw [infer_filename_eq_spec]
  have hcd : cdResolver [("Content-Disposition", "attachment; filename=\"survey.sav\"")] =
      some "survey.sav" := by decide
  simp [inferFilenameSpec, hcd]

/-- Claim C8: `collect_urls` returns the combined direct-then-file URL list
deduplicated keeping first occurrences: it equals the first-occurrence
deduplication of `direct ++ fileUrls`, contains each URL of the input exactly
once, and is a sublist (so in first-seen order) of the combined input. -/
theorem collect_urls_first_seen_unique (direct fileUrls : List String) :
    collect_urls direct fileUrls = dedupFirstSpec (direct ++ fileUrls) ∧
    (∀ u, (collect_urls direct fileUrls).count u =
      if u ∈ direct ++ fileUrls then 1 else 0) ∧
    (collect_urls direct fileUrls).Sublist (direct ++ fileUrls) := by
  refine ⟨collect_urls_eq_dedup direct fileUrls, ?_, ?_⟩
  · intro u
    rw [collect_urls_eq_dedup]
    exact count_dedupFirstSpec _ u
  · rw [collect_urls_eq_dedup]
    exact dedupFirstSpec_sublist _

/-- Claim C9: `read_url_file` strips every line and keeps, in file order,
exactly the lines that are non-blank after stripping and do not start with
`#`; checked also on a concrete file with blank and comment lines. -/
theorem read_url_file_filters_lines :
    (∀ lines : List String,
      read_url_file (some lines) =
        (lines.map pyStrip).filter (fun s => !(s == "" || pyStartsWith s "#"))) ∧
    read_url_file (some ["  https://a.test/x  ", "", "   ", "# comment",
        "https://b.test/y"]) = ["https://a.test/x", "https://b.test/y"] := by
  refine ⟨?_, by decide⟩
  intro lines
  have h := read_url_file_foldl lines []
  simpa [read_url_file] using h

/-- Claim C5: whenever the response status is not exactly 200,
`download_file` fails with a `DownloadError` and performs no retry and no
write: the directory state is returned unchanged. -/
theorem download_file_non200 (url output_dir : String) (fs : Fs) (resp : Response)
    (tempName : String) (h : resp.status ≠ 200) :
    (∃ e, (download_file url output_dir fs resp tempName).1 = .error e) ∧
    (download_file url output_dir fs resp tempName).2 = fs := by
  have hb : (resp.status == 200) = false := by simp [h]
  refine ⟨⟨"HTTP " ++ toString resp.status ++ " for " ++ url, ?_⟩, ?_⟩ <;>
    simp [download_file, hb]

/-- Witness for C5: a 404 response fails and leaves the directory as it was. -/
theorem download_file_non200_witness :
    (404 : Nat) ≠ 200 ∧
    ((∃ e, (download_file "https://x.test/f" "data/raw" [("keep", [1])]
        ⟨404, [], [7]⟩ "tmp1").1 = .error e) ∧
     (download_file "https://x.test/f" "data/raw" [("keep", [1])]
        ⟨404, [], [7]⟩ "tmp1").2 = [("keep", [1])]) :=
  ⟨by decide, download_file_non200 "https://x.test/f" "data/raw" [("keep", [1])]
    ⟨404, [], [7]⟩ "tmp1" (by decide)⟩

/-- Claim C4: a 200 response with an empty body makes `download_file` raise
a `DownloadError` after deleting the temporary file, leaving the output
directory exactly as it was (no new file, no leftover temp file). -/
theorem download_file_empty_body (url output_dir : String) (fs : Fs) (resp : Response)
    (tempName : String) (h200 : resp.status = 200) (hbody : resp.body = [])
    (hfresh : fsLookup fs tempName = none) :
    (∃ e, (download_file url output_dir fs resp tempName).1 = .error e) ∧
    (download_file url output_dir fs resp tempName).2 = fs := by
  have hs : (resp.status == 200) = true := by simp [h200]
  refine ⟨⟨"Downloaded file is empty: " ++
    (output_dir ++ "/" ++ infer_filename url resp.headers), ?_⟩, ?_⟩ <;>
    simp [download_file, hs, hbody, fsRemove_fsWrite_fresh fs tempName [] hfresh]

/-- Witness for C4: an empty 200 response against a directory holding one
unrelated file errors out and leaves that directory unchanged. -/
theorem download_file_empty_body_witness :
    (Response.mk 200 [] []).status = 200 ∧ (Response.mk 200 [] []).body = [] ∧
    fsLookup [("keep", [1])] "tmp2" = none ∧
    ((∃ e, (download_file "https://x.test/f" "data/raw" [("keep", [1])]
        ⟨200, [], []⟩ "tmp2").1 = .error e) ∧
     (download_file "https://x.test/f" "data/raw" [("keep", [1])]
        ⟨200, [], []⟩ "tmp2").2 = [("keep", [1])]) :=
  ⟨rfl, rfl, by decide,
    download_file_empty_body "https://x.test/f" "data/raw" [("keep", [1])]
      ⟨200, [], []⟩ "tmp2" rfl rfl (by decide)⟩

/-- Claim C1: a successful `download_file` call (status 200, non-empty body,
fresh temporary name) returns `output_dir/<inferred name>`, leaves that file
holding exactly the response body (so its size is the body's byte count),
overwrites any previous file of that name, deletes the temporary file, and
touches no other file of the directory. -/
theorem download_file_success (url output_dir : String) (fs : Fs) (resp : Response)
    (tempName : String) (h200 : resp.status = 200) (hbody : resp.body ≠ [])
    (hfresh : fsLookup fs tempName = none)
    (hne : tempName ≠ infer_filename url resp.headers) :
    (download_file url output_dir fs resp tempName).1 =
      .ok (output_dir ++ "/" ++ infer_filename url resp.headers) ∧
    fsLookup (download_file url output_dir fs resp tempName).2
      (infer_filename url resp.headers) = some resp.body ∧
    (fsLookup (download_file url output_dir fs resp tempName).2
      (infer_filename url resp.headers)).map List.length = some resp.body.length ∧
    fsLookup (download_file url output_dir fs resp tempName).2 tempName = none ∧
    (∀ k, k ≠ infer_filename url resp.headers → k ≠ tempName →
      fsLookup (download_file url output_dir fs resp tempName).2 k = fsLookup fs k) := by
  have hs : (resp.status == 200) = true := by simp [h200]
  have hlen : (resp.body.length == 0) = false := by
    simp [List.length_eq_zero, hbody]
  have hstate : (download_file url output_dir fs resp tempName).2 =
      fsWrite fs (infer_filename url resp.headers) resp.body := by
    simp [download_file, hs, hlen, fsRemove_fsWrite_fresh fs tempName resp.body hfresh]
  refine ⟨?_, ?_, ?_, ?_, ?_⟩
  · simp [download_file, hs, hlen]
  · rw [hstate]
    exact fsLookup_fsWrite_self fs _ resp.body
  · rw [hstate, fsLookup_fsWrite_self fs _ resp.body]
    rfl
  · rw [hstate, fsLookup_fsWrite_ne fs _ resp.body tempName hne]
    exact hfresh
  · intro k hk _
    rw [hstate]
    exact fsLookup_fsWrite_ne fs _ resp.body k hk

/-- Witness for C1: downloading three bytes over a directory that already
holds a stale `survey.sav` and one unrelated file; the inferred name comes
from `Content-Disposition`, the stale file is overwritten, the temp file is
gone and the unrelated file is untouched. -/
theorem download_file_success_witness :
    (Response.mk 200 [("Content-Disposition", "attachment; filename=\"survey.sav\"")]
      [1, 2, 3]).status = 200 ∧
    (Response.mk 200 [("Content-Disposition", "attachment; filename=\"survey.sav\"")]
      [1, 2, 3]).body ≠ [] ∧
    fsLookup [("survey.sav", [9, 9, 9, 9]), ("keep", [1])] "tmpabc" = none ∧
    "tmpabc" ≠ infer_filename "https://x.test/files/data.zip"
      (Response.mk 200 [("Content-Disposition", "attachment; filename=\"survey.sav\"")]
        [1, 2, 3]).headers ∧
    ((download_file "https://x.test/files/data.zip" "data/raw"
        [("survey.sav", [9, 9, 9, 9]), ("keep", [1])]
        ⟨200, [("Content-Disposition", "attachment; filename=\"survey.sav\"")], [1, 2, 3]⟩
        "tmpabc").1 =
      .ok ("data/raw" ++ "/" ++ infer_filename "https://x.test/files/data.zip"
        (Response.mk 200 [("Content-Disposition", "attachment; filename=\"survey.sav\"")]
          [1, 2, 3]).headers) ∧
     fsLookup (download_file "https://x.test/files/data.zip" "data/raw"
        [("survey.sav", [9, 9, 9, 9]), ("keep", [1])]
        ⟨200, [("Content-Disposition", "attachment; filename=\"survey.sav\"")], [1, 2, 3]⟩
        "tmpabc").2
      (infer_filename "https://x.test/files/data.zip"
        (Response.mk 200 [("Content-Disposition", "attachment; filename=\"survey.sav\"")]
          [1, 2, 3]).headers) = some [1, 2, 3] ∧
     (fsLookup (download_file "https://x.test/files/data.zip" "data/raw"
        [("survey.sav", [9, 9, 9, 9]), ("keep", [1])]
        ⟨200, [("Content-Disposition", "attachment; filename=\"survey.sav\"")], [1, 2, 3]⟩
        "tmpabc").2
      (infer_filename "https://x.test/files/data.zip"
        (Response.mk 200 [("Content-Disposition", "attachment; filename=\"survey.sav\"")]
          [1, 2, 3]).headers)).map List.length = some ([1, 2, 3] : List Nat).length ∧
     fsLookup (download_file "https://x.test/files/data.zip" "data/raw"
        [("survey.sav", [9, 9, 9, 9]), ("keep", [1])]
        ⟨200, [("Content-Disposition", "attachment; filename=\"survey.sav\"")], [1, 2, 3]⟩
        "tmpabc").2 "tmpabc" = none ∧
     (∀ k, k ≠ infer_filename "https://x.test/files/data.zip"
        (Response.mk 200 [("Content-Disposition", "attachment; filename=\"survey.sav\"")]
          [1, 2, 3]).headers → k ≠ "tmpabc" →
       fsLookup (download_file "https://x.test/files/data.zip" "data/raw"
          [("survey.sav", [9, 9, 9, 9]), ("keep", [1])]
          ⟨200, [("Content-Disposition", "attachment; filename=\"survey.sav\"")], [1, 2, 3]⟩
          "tmpabc").2 k =
        fsLookup [("survey.sav", [9, 9, 9, 9]), ("keep", [1])] k)) :=
  ⟨rfl, by decide, by decide, by decide,
    download_file_success "https://x.test/files/data.zip" "data/raw"
      [("survey.sav", [9, 9, 9, 9]), ("keep", [1])]
      ⟨200, [("Content-Disposition", "attachment; filename=\"survey.sav\"")], [1, 2, 3]⟩
      "tmpabc" rfl (by decide) (by decide) (by decide)⟩

theorem splitAtFirst_fst (c : Char) (l : List Char) :
    (match splitAtFirst c l with
     | some p => p.1
     | none => l) = l.takeWhile (fun x => x != c) := by
  induction l with
  | nil => rfl
  | cons a as ih =>
    cases hb : a == c
    · simp only [splitAtFirst, hb, Bool.false_eq_true, if_false]
      cases h : splitAtFirst c as with
      | some p =>
        rw [h] at ih
        simp only [List.takeWhile_cons, bne, hb, Bool.not_false, if_true]
        simpa using congrArg (List.cons a) ih
      | none =>
        rw [h] at ih
        simp only [List.takeWhile_cons, bne, hb, Bool.not_false, if_true]
        simpa using congrArg (List.cons a) ih
    · simp only [splitAtFirst, hb, if_true]
      simp [List.takeWhile_cons, bne, hb]

theorem splitAtFirst_snd (c : Char) (l : List Char) :
    (match splitAtFirst c l with
     | some p => p.2
     | none => []) = (l.dropWhile (fun x => x != c)).drop 1 := by
  induction l with
  | nil => rfl
  | cons a as ih =>
    cases hb : a == c
    · simp only [splitAtFirst, hb, Bool.false_eq_true, if_false]
      cases h : splitAtFirst c as with
      | some p =>
        rw [h] at ih
        simpa [List.dropWhile_cons, bne, hb] using ih
      | none =>
        rw [h] at ih
        simpa [List.dropWhile_cons, bne, hb] using ih
    · simp only [splitAtFirst, hb, if_true]
      simp [List.dropWhile_cons, bne, hb]

theorem splitFirstColon_fst (s : String) :
    (splitFirstColon s).1 = String.mk (s.data.takeWhile (fun c => c != ':')) := by
  have h := splitAtFirst_fst ':' s.data
  unfold splitFirstColon
  cases hs : splitAtFirst ':' s.data with
  | some p =>
    rw [hs] at h
    simp only [] at h ⊢
    rw [h]
  | none =>
    rw [hs] at h
    simp only [] at h ⊢
    rw [← h]

theorem splitFirstColon_snd (s : String) :
    (splitFirstColon s).2 = String.mk ((s.data.dropWhile (fun c => c != ':')).drop 1) := by
  have h := splitAtFirst_snd ':' s.data
  unfold splitFirstColon
  cases hs : splitAtFirst ':' s.data with
  | some p =>
    rw [hs] at h
    simp only [] at h ⊢
    rw [h]
  | none =>
    rw [hs] at h
    simp only [] at h ⊢
    rw [← h]

theorem build_headers_ok (ua : String) (ref : Option String) (es : List String)
    (h1 : ∀ s ∈ es, hasColon s = true) :
    build_headers ua ref es =
      .ok (es.foldl (fun m s => hinsert m (headerName s) (headerValue s))
        (match ref with
         | some r => if r == "" then [("User-Agent", ua)]
                     else hinsert [("User-Agent", ua)] "Referer" r
         | none => [("User-Agent", ua)])) := by
  simp only [build_headers]
  exact buildExtra_ok es _ h1

/-- Claim C10: in `build_headers` the last occurrence of a header name wins:
appending a well-formed entry makes its (stripped) name map to its (stripped)
value, silently replacing any earlier binding — including the default
`User-Agent` and the optional `Referer`. -/
theorem build_headers_last_occurrence_wins (ua : String) (ref : Option String)
    (es : List String) (e : String)
    (h1 : ∀ s ∈ es, hasColon s = true) (h2 : hasColon e = true) :
    ∃ m, build_headers ua ref (es ++ [e]) = .ok m ∧
      hlookup m (headerName e) = some (headerValue e) := by
  have hall : ∀ s ∈ es ++ [e], hasColon s = true := by
    intro s hm
    rcases List.mem_append.mp hm with h | h
    · exact h1 s h
    · rw [List.mem_singleton.mp h]
      exact h2
  rw [build_headers_ok ua ref (es ++ [e]) hall]
  refine ⟨_, rfl, ?_⟩
  rw [List.foldl_append]
  simp only [List.foldl_cons, List.foldl_nil]
  exact hlookup_hinsert_self _ _ _

/-- Witness for C10: an extra `User-Agent: override` entry replaces the
default user agent. -/
theorem build_headers_last_occurrence_wins_witness :
    (∀ s ∈ ([] : List String), hasColon s = true) ∧
    hasColon "User-Agent: override" = true ∧
    (∃ m, build_headers "Mozilla/5.0 (compatible; ENDESDownloader/1.0)"
        (some "https://ref.test") ([] ++ ["User-Agent: override"]) = .ok m ∧
      hlookup m (headerName "User-Agent: override") =
        some (headerValue "User-Agent: override")) :=
  ⟨fun s hm => absurd hm (List.not_mem_nil s), by decide,
    build_headers_last_occurrence_wins "Mozilla/5.0 (compatible; ENDESDownloader/1.0)"
      (some "https://ref.test") [] "User-Agent: override"
      (fun s hm => absurd hm (List.not_mem_nil s)) (by decide)⟩

/-- Counterexample to claim C7 as stated: with no referer provided, the extra
well-formed entry `"Referer: http://evil.test"` still puts a `Referer` key in
the resulting map, so the map does not contain `Referer` "exactly when a
referer was provided". -/
theorem build_headers_extra_referer_counterexample :
    build_headers "agent" none ["Referer: http://evil.test"] =
      .ok [("User-Agent", "agent"), ("Referer", "http://evil.test")] ∧
    hlookup [("User-Agent", "agent"), ("Referer", "http://evil.test")] "Referer" =
      some "http://evil.test" := by
  exact ⟨rfl, rfl⟩

/-- Claim C7 (amended): every extra entry is split on its first colon only,
with whitespace trimmed from name and value; and provided no extra entry is
itself named `User-Agent` or `Referer`, the resulting map binds `User-Agent`
to the given user agent and binds `Referer` exactly when a non-empty referer
was provided (Python truthiness: an empty referer string is not added). -/
theorem build_headers_contract (ua : String) (ref : Option String) (es : List String)
    (h1 : ∀ s ∈ es, hasColon s = true)
    (h2 : ∀ s ∈ es, headerName s ≠ "User-Agent")
    (h3 : ∀ s ∈ es, headerName s ≠ "Referer") :
    (∀ s : String,
      headerName s = pyStrip (String.mk (s.data.takeWhile (fun c => c != ':'))) ∧
      headerValue s = pyStrip (String.mk ((s.data.dropWhile (fun c => c != ':')).drop 1))) ∧
    ∃ m, build_headers ua ref es = .ok m ∧
      hlookup m "User-Agent" = some ua ∧
      hlookup m "Referer" =
        (match ref with
         | none => none
         | some r => if r == "" then none else some r) := by
  constructor
  · intro s
    constructor
    · rw [headerName, splitFirstColon_fst]
    · rw [headerValue, splitFirstColon_snd]
  · rw [build_headers_ok ua ref es h1]
    refine ⟨_, rfl, ?_, ?_⟩
    · rw [hlookup_foldl_ne es "User-Agent" _ h2]
      cases ref with
      | none => simp [hlookup_cons]
      | some r =>
        cases hr : r == ""
        · simp only [hr, Bool.false_eq_true, if_false]
          rw [hlookup_hinsert_ne _ _ _ _ (by decide)]
          simp [hlookup_cons]
        · simp only [hr, if_true]
          simp [hlookup_cons]
    · rw [hlookup_foldl_ne es "Referer" _ h3]
      cases ref with
      | none => simp [hlookup_cons, hlookup]
      | some r =>
        cases hr : r == ""
        · simp only [hr, Bool.false_eq_true, if_false]
          exact hlookup_hinsert_self _ _ _
        · simp only [hr, if_true]
          simp [hlookup_cons, hlookup]

/-- Witness for the amended C7: one extra `X-Token:  abc ` entry, a referer
provided; the name and value are trimmed, `User-Agent` and `Referer` hold the
given values. -/
theorem build_headers_contract_witness :
    (∀ s ∈ ["X-Token:  abc "], hasColon s = true) ∧
    (∀ s ∈ ["X-Token:  abc "], headerName s ≠ "User-Agent") ∧
    (∀ s ∈ ["X-Token:  abc "], headerName s ≠ "Referer") ∧
    ((∀ s : String,
        headerName s = pyStrip (String.mk (s.data.takeWhile (fun c => c != ':'))) ∧
        headerValue s = pyStrip (String.mk ((s.data.dropWhile (fun c => c != ':')).drop 1))) ∧
     ∃ m, build_headers "Mozilla/5.0 (compatible; ENDESDownloader/1.0)"
        (some "https://ref.test") ["X-Token:  abc "] = .ok m ∧
       hlookup m "User-Agent" = some "Mozilla/5.0 (compatible; ENDESDownloader/1.0)" ∧
       hlookup m "Referer" =
         (match (some "https://ref.test" : Option String) with
          | none => none
          | some r => if r == "" then none else some r)) :=
  ⟨by decide, by decide, by decide,
    build_headers_contract "Mozilla/5.0 (compatible; ENDESDownloader/1.0)"
      (some "https://ref.test") ["X-Token:  abc "] (by decide) (by decide) (by decide)⟩

/-- Claim C3: with a non-empty URL list and well-formed headers, `main`
attempts every URL in order (one failure never stops the rest), the failures
list records exactly the failing URLs in order, and the exit code is 0 when
it is empty and 1 otherwise; with no URLs at all, the exit code is 2 and
nothing is attempted. -/
theorem main_exit_code_policy (direct : List String) (urlFile : Option (List String))
    (ua : String) (ref : Option String) (es : List String)
    (download : String → Except String String)
    (hne : collect_urls direct (read_url_file urlFile) ≠ [])
    (hok : ∀ s ∈ es, hasColon s = true) :
    runMain direct urlFile ua ref es download =
      (.ok (if (collect_urls direct (read_url_file urlFile)).filter
              (downloadFails download) = [] then 0 else 1),
       collect_urls direct (read_url_file urlFile),
       (collect_urls direct (read_url_file urlFile)).filter (downloadFails download)) ∧
    (∀ direct2 urlFile2,
      collect_urls direct2 (read_url_file urlFile2) = [] →
      runMain direct2 urlFile2 ua ref es download = (.ok 2, [], [])) := by
  constructor
  · have hempty : (collect_urls direct (read_url_file urlFile)).isEmpty = false := by
      cases h : collect_urls direct (read_url_file urlFile)
      · exact absurd h hne
      · rfl
    have hiff : ∀ l : List String, (if l.isEmpty then (0 : Nat) else 1) =
        (if l = [] then 0 else 1) := by
      intro l
      cases l <;> simp
    simp only [runMain, hempty, Bool.false_eq_true, if_false]
    rw [build_headers_ok ua ref es hok]
    simp only [downloadLoop_eq]
    rw [hiff]
  · intro direct2 urlFile2 h
    have hempty : (collect_urls direct2 (read_url_file urlFile2)).isEmpty = true := by
      simp [h]
    simp [runMain, hempty]

/-- Witness for C3: three URLs of which exactly the second fails; all three
are attempted in order, the second is the sole failure, and the exit code
is 1. -/
theorem main_exit_code_policy_witness :
    collect_urls ["https://x.test/a", "https://x.test/b", "https://x.test/c"]
      (read_url_file none) ≠ [] ∧
    (∀ s ∈ ([] : List String), hasColon s = true) ∧
    (runMain ["https://x.test/a", "https://x.test/b", "https://x.test/c"] none
        "ua" none []
        (fun u => if u == "https://x.test/b" then .error "HTTP 404" else .ok u) =
      (.ok (if (collect_urls ["https://x.test/a", "https://x.test/b", "https://x.test/c"]
              (read_url_file none)).filter
              (downloadFails
                (fun u => if u == "https://x.test/b" then .error "HTTP 404" else .ok u)) = []
            then 0 else 1),
       collect_urls ["https://x.test/a", "https://x.test/b", "https://x.test/c"]
         (read_url_file none),
       (collect_urls ["https://x.test/a", "https://x.test/b", "https://x.test/c"]
         (read_url_file none)).filter
         (downloadFails
           (fun u => if u == "https://x.test/b" then .error "HTTP 404" else .ok u))) ∧
     (∀ direct2 urlFile2,
       collect_urls direct2 (read_url_file urlFile2) = [] →
       runMain direct2 urlFile2 "ua" none []
         (fun u => if u == "https://x.test/b" then .error "HTTP 404" else .ok u) =
         (.ok 2, [], []))) :=
  ⟨by decide, fun s hm => absurd hm (List.not_mem_nil s),
    main_exit_code_policy ["https://x.test/a", "https://x.test/b", "https://x.test/c"]
      none "ua" none []
      (fun u => if u == "https://x.test/b" then .error "HTTP 404" else .ok u)
      (by decide) (fun s hm => absurd hm (List.not_mem_nil s))⟩

/-- Counterexample to claim C6 as stated: a run whose `--header` list holds
the colonless entry `"BadHeader"` but which supplies no URLs exits with
code 2 and never raises the configuration error, so "for every run with a
colonless header the program fails with a configuration error" is false. -/
theorem main_bad_header_zero_urls_counterexample :
    hasColon "BadHeader" = false ∧
    runMain [] none "ua" none ["BadHeader"] (fun u => .ok u) = (.ok 2, [], []) :=
  ⟨rfl, rfl⟩

/-- Claim C6 (amended): in every run that supplies at least one URL, a
`--header` argument without a colon makes the program fail with the
configuration `DownloadError` before any download is attempted: the run
aborts with no URL attempted and no failure recorded. -/
theorem main_bad_header_aborts (direct : List String) (urlFile : Option (List String))
    (ua : String) (ref : Option String) (es : List String)
    (download : String → Except String String)
    (hne : collect_urls direct (read_url_file urlFile) ≠ [])
    (hbad : ∃ s ∈ es, hasColon s = false) :
    ∃ e, runMain direct urlFile ua ref es download = (.error e, [], []) := by
  have hempty : (collect_urls direct (read_url_file urlFile)).isEmpty = false := by
    cases h : collect_urls direct (read_url_file urlFile)
    · exact absurd h hne
    · rfl
  obtain ⟨e, he⟩ := buildExtra_error es
    (match ref with
     | some r => if r == "" then [("User-Agent", ua)]
                 else hinsert [("User-Agent", ua)] "Referer" r
     | none => [("User-Agent", ua)]) hbad
  refine ⟨e, ?_⟩
  simp only [runMain, hempty, Bool.false_eq_true, if_false, build_headers]
  rw [he]

/-- Witness for the amended C6: one URL plus the colonless header
`"BadHeader"`: the run aborts with an error and attempts nothing. -/
theorem main_bad_header_aborts_witness :
    collect_urls ["https://x.test/a"] (read_url_file none) ≠ [] ∧
    (∃ s ∈ ["BadHeader"], hasColon s = false) ∧
    (∃ e, runMain ["https://x.test/a"] none "ua" none ["BadHeader"]
        (fun u => .ok u) = (.error e, [], [])) :=
  ⟨by decide, by decide,
    main_bad_header_aborts ["https://x.test/a"] none "ua" none ["BadHeader"]
      (fun u => .ok u) (by decide) (by decide)⟩
